import Mathlib

/-!
Verification development for the user-service HTTP router
(`src/routes/userRoutes.ts`): an in-process TTL cache keyed by strings,
prefix-based invalidation, and the five routes handled by `userRouter`
(`GET /load`, `DELETE /users/:userId`, `GET /users/:userId`,
`GET /users` with pagination/search/sort, `PUT /users`).

The JavaScript source is shallowly embedded:
* the process-wide `cache` object is a map `String → Option (CacheEntry α)`;
* `Date.now()` is an explicit `now : Nat` (milliseconds) threaded through;
* machine numbers are `Int`/`Nat` (the integers occurring here are far from
  the 2^53 float-precision boundary);
* `JSON.parse` outcomes are values of an inductive `JsValue`
  (`none` models a parse exception);
* string operations of the JS runtime (`startsWith`, `split("/")`,
  `toLowerCase`, `parseInt`, number→string, `JSON.stringify`) are modelled
  as executable functions on `List Char` so that concrete runs reduce.
-/

/-! ## Cache store (`cache`, `setCache`, `getCache`, `invalidateCacheByPrefix`) -/

/-- Entry of the process-wide cache object: `{ data, timestamp }`. -/
structure CacheEntry (α : Type) where
  data : α
  timestamp : Nat

/-- Map model of the JS object `cache` (keys are unique, so a function). -/
def CacheMap (α : Type) : Type := String → Option (CacheEntry α)

/-- The cache at process start: no keys. -/
def emptyCache (α : Type) : CacheMap α := fun _ => none

/-- Model of `CACHE_TTL = 5 * 60 * 1000`. -/
def CACHE_TTL : Nat := 5 * 60 * 1000

/-- Model of `String.prototype.startsWith` on code points: is `p` a
leading segment of `s`? -/
def startsWithL : List Char → List Char → Bool
  | [], _ => true
  | _ :: _, [] => false
  | a :: p, b :: s => a == b && startsWithL p s

/-- JS `s.startsWith(p)`. -/
def jsStartsWith (s p : String) : Bool := startsWithL p.data s.data

/-- Model of `setCache(key, data)`: unconditional overwrite with the
current time as timestamp. -/
def setCache {α} (c : CacheMap α) (key : String) (data : α) (now : Nat) : CacheMap α :=
  fun k => if k = key then some ⟨data, now⟩ else c k

/-- Model of `getCache(key)`: `null` when the key is absent or
`now - entry.timestamp > CACHE_TTL`, the stored data otherwise. -/
def getCache {α} (c : CacheMap α) (key : String) (now : Nat) : Option α :=
  match c key with
  | none => none
  | some e => if now - e.timestamp > CACHE_TTL then none else some e.data

/-- Model of `invalidateCacheByPrefix(p)`: delete every key that starts
with `p`, keep the rest untouched. -/
def invalidateCacheByPrefix {α} (c : CacheMap α) (p : String) : CacheMap α :=
  fun k => if jsStartsWith k p then none else c k

/-! ## JS string and number primitives -/

/-- Decimal digit test (`\d`, also the digits accepted by `parseInt`). -/
def isDigitB (c : Char) : Bool := decide (48 ≤ c.toNat) && decide (c.toNat ≤ 57)

/-- Whitespace skipped by `parseInt`. -/
def jsIsSpace (c : Char) : Bool :=
  c == ' ' || c == '\t' || c == '\n' || c == '\r' || c == '\x0c' || c == '\x0b'

/-- Numeric value of a list of decimal digit characters. -/
def digitsVal (l : List Char) : Nat := l.foldl (fun a c => 10 * a + (c.toNat - 48)) 0

/-- Longest decimal-digit run at the head of `l`, with its value;
`none` when `l` does not start with a digit. -/
def readDigits (l : List Char) : Option (Nat × List Char) :=
  let ds := l.takeWhile isDigitB
  if ds.isEmpty then none else some (digitsVal ds, l.dropWhile isDigitB)

/-- Model of `parseInt(s, 10)` on code points: skip whitespace, optional
sign, then the longest digit run; `none` models `NaN`. -/
def parseIntL (l : List Char) : Option Int :=
  let t := l.dropWhile jsIsSpace
  if t.headD ' ' = '-' then (readDigits t.tail).map (fun p => -(p.1 : Int))
  else if t.headD ' ' = '+' then (readDigits t.tail).map (fun p => (p.1 : Int))
  else (readDigits t).map (fun p => (p.1 : Int))

/-- JS `parseInt(s, 10)`. -/
def parseIntJS (s : String) : Option Int := parseIntL s.data

/-- Digit character for `d < 10`. -/
def digitC (d : Nat) : Char := Char.ofNat (48 + d)

/-- Decimal rendering of a natural number, fuelled so that concrete keys
reduce inside the kernel; `natReprFuel (n+1) n` prints `n`. -/
def natReprFuel : Nat → Nat → List Char
  | 0, _ => []
  | f + 1, n => if n < 10 then [digitC n] else natReprFuel f (n / 10) ++ [digitC (n % 10)]

/-- Model of JS number→string for the naturals appearing here. -/
def natReprL (n : Nat) : List Char := natReprFuel (n + 1) n

/-- Model of JS number→string for integers (`(-5).toString() = "-5"`). -/
def intReprL (z : Int) : List Char :=
  if z < 0 then '-' :: natReprL z.natAbs else natReprL z.toNat

/-! ## JSON string escaping (`JSON.stringify` on the values used here) -/

/-- Lowercase hex digit for `n < 16`. -/
def hexDigitC (n : Nat) : Char :=
  if n < 10 then Char.ofNat (48 + n) else Char.ofNat (87 + n)

/-- Escape of one character inside a JSON string literal, following
`JSON.stringify`: quote and backslash get a backslash escape, the named
control characters get their short escapes, other controls become
`\u00XX`, everything else is copied. -/
def jsonEscapeChar (c : Char) : List Char :=
  if c = '"' then ['\\', '"']
  else if c = '\\' then ['\\', '\\']
  else if c = '\x08' then ['\\', 'b']
  else if c = '\t' then ['\\', 't']
  else if c = '\n' then ['\\', 'n']
  else if c = '\x0c' then ['\\', 'f']
  else if c = '\r' then ['\\', 'r']
  else if c.toNat < 32 then
    ['\\', 'u', '0', '0', hexDigitC (c.toNat / 16), hexDigitC (c.toNat % 16)]
  else [c]

/-- Escape of a whole JSON string body. -/
def escapeL : List Char → List Char
  | [] => []
  | c :: rest => jsonEscapeChar c ++ escapeL rest

/-- JSON rendering `"body"` of a string, quotes included. -/
def jsonStrL (s : String) : List Char := '"' :: escapeL s.data ++ ['"']

/-! ## The collection cache key

`JSON.stringify({ page, limit, search, sortBy, order })`: object literal
keys are serialized in insertion order, so the key is the fixed frame
below with the five values spliced in. -/

/-- Character frame piece `\x7b"page":` of the serialized object
(`\x7b`/`\x7d` denote the braces). -/
def kPage : List Char := ['\x7b', '"', 'p', 'a', 'g', 'e', '"', ':']

/-- Frame piece `,"limit":`. -/
def kLimit : List Char := [',', '"', 'l', 'i', 'm', 'i', 't', '"', ':']

/-- Frame piece `,"search":`. -/
def kSearch : List Char := [',', '"', 's', 'e', 'a', 'r', 'c', 'h', '"', ':']

/-- Frame piece `,"sortBy":`. -/
def kSortBy : List Char := [',', '"', 's', 'o', 'r', 't', 'B', 'y', '"', ':']

/-- Frame piece `,"order":`. -/
def kOrder : List Char := [',', '"', 'o', 'r', 'd', 'e', 'r', '"', ':']

/-- Characters of `JSON.stringify({ page, limit, search, sortBy, order })`. -/
def collectionKeyChars (page limit : Int) (search sortBy : String) (order : Int) : List Char :=
  kPage ++ intReprL page ++
  kLimit ++ intReprL limit ++
  kSearch ++ jsonStrL search ++
  kSortBy ++ jsonStrL sortBy ++
  kOrder ++ intReprL order ++ ['\x7d']

/-- The cache key of a collection read
(line 158: `const cacheKey = JSON.stringify({ page, limit, search, sortBy, order })`). -/
def collectionKey (page limit : Int) (search sortBy : String) (order : Int) : String :=
  ⟨collectionKeyChars page limit search sortBy order⟩

/-! ## JS values (outcomes of `JSON.parse`, documents, response bodies) -/

/-- JSON-representable JS value; numbers are the integers used by this
service. -/
inductive JsValue where
  | nullV
  | boolV (b : Bool)
  | numV (n : Int)
  | strV (s : String)
  | arrV (elems : List JsValue)
  | objV (fields : List (String × JsValue))

/-- JS truthiness of a `JsValue` (`!newUser`, `if (cachedData)`). -/
def jsTruthy : JsValue → Bool
  | .nullV => false
  | .boolV b => b
  | .numV n => decide (n ≠ 0)
  | .strV s => !s.data.isEmpty
  | .arrV _ => true
  | .objV _ => true

/-- First binding of `k` in an object's field list. -/
def lookupField : List (String × JsValue) → String → Option JsValue
  | [], _ => none
  | (k', v) :: rest, k => if k' = k then some v else lookupField rest k

/-- Property read `v[k]`; `none` models `undefined`. -/
def jsGetField (v : JsValue) (k : String) : Option JsValue :=
  match v with
  | .objV fs => lookupField fs k
  | _ => none

/-- The numeric `id` property, when present
(`typeof newUser.id === "number"`). -/
def jsNumId (v : JsValue) : Option Int :=
  match jsGetField v "id" with
  | some (.numV n) => some n
  | _ => none

/-- Model of the spread `{ ...v, k: newVal }`: replace the binding of `k`
in place, or append it. -/
def jsSetField (v : JsValue) (k : String) (newVal : JsValue) : JsValue :=
  match v with
  | .objV fs =>
    if fs.any (fun p => decide (p.1 = k)) then
      .objV (fs.map (fun p => if p.1 = k then (k, newVal) else p))
    else .objV (fs ++ [(k, newVal)])
  | _ => .objV [(k, newVal)]

/-- Body `JSON.stringify({ error: msg })`, kept structured. -/
def errBody (msg : String) : JsValue := .objV [("error", .strV msg)]

/-- Body `JSON.stringify({ message: msg })`, kept structured. -/
def msgBody (msg : String) : JsValue := .objV [("message", .strV msg)]

/-! ## Store collaborator (`db.collection("users")`)

The document store is the external collaborator of §4.4 of the spec:
`find`/`findOne`/`insertOne`/`deleteOne`/`countDocuments` over the
`users` collection, embedded as a `List JsValue` in insertion order. -/

/-- Does the filter `{ id: n }` match this document? -/
def docHasId (d : JsValue) (n : Int) : Bool :=
  match jsGetField d "id" with
  | some (.numV m) => decide (m = n)
  | _ => false

/-- Model of `findOne({ id: n })`: first matching document. -/
def findOneById (db : List JsValue) (n : Int) : Option JsValue :=
  db.find? (fun d => docHasId d n)

/-- Model of `deleteOne({ id: n })`: `none` when `deletedCount` is `0`,
otherwise the store without the first matching document. -/
def deleteOneById : List JsValue → Int → Option (List JsValue)
  | [], _ => none
  | d :: rest, n =>
    if docHasId d n then some rest
    else (deleteOneById rest n).map (fun db' => d :: db')

/-- String field of a document, as seen by the search filter and the
sort comparator (`""` for a missing or non-string field). -/
def docStrField (d : JsValue) (k : String) : String :=
  match jsGetField d k with
  | some (.strV s) => s
  | _ => ""

/-! ## Search filter and sort -/

/-- Character-wise ASCII lowercasing, the model of `toLowerCase` for the
character set this service handles. -/
def toLowerL (l : List Char) : List Char := l.map Char.toLower

/-- JS `s.toLowerCase()`. -/
def jsToLower (s : String) : String := ⟨toLowerL s.data⟩

/-- Does `p` occur as a contiguous run somewhere in `t`? -/
def occursIn (p t : List Char) : Bool :=
  startsWithL p t ||
    match t with
    | [] => false
    | _ :: t' => occursIn p t'

/-- Modelled from the spec: the store evaluates
`{ $regex: pattern, $options: "i" }` on a string field as a
case-insensitive substring match (§4.3/§4.4 treat the store as a
black-box collaborator with exactly this contract). -/
def regexMatchesCI (pattern text : String) : Bool :=
  occursIn (toLowerL pattern.data) (toLowerL text.data)

/-- Filter descriptor built on lines 148–156: `{}` for a falsy search,
otherwise the `$or` of the three `$regex` clauses over the one search
string. -/
def mkListQuery (search : String) : Option String :=
  if search.data.isEmpty then none else some search

/-- Evaluation of the filter descriptor on one document. -/
def matchesQuery (q : Option String) (d : JsValue) : Bool :=
  match q with
  | none => true
  | some s =>
    regexMatchesCI s (docStrField d "name") ||
    regexMatchesCI s (docStrField d "username") ||
    regexMatchesCI s (docStrField d "email")

/-- Code-point lexicographic comparison backing the sort comparator. -/
def lexLe : List Char → List Char → Bool
  | [], _ => true
  | _ :: _, [] => false
  | a :: as, b :: bs =>
    if a.toNat < b.toNat then true
    else if b.toNat < a.toNat then false
    else lexLe as bs

/-- Modelled from the spec: the store's sort order on one field value
(numbers before strings, each ordered naturally; only `id` is numeric
here). -/
def fieldLe : Option JsValue → Option JsValue → Bool
  | some (.numV a), some (.numV b) => decide (a ≤ b)
  | some (.strV a), some (.strV b) => lexLe a.data b.data
  | some (.numV _), some (.strV _) => true
  | some (.strV _), some (.numV _) => false
  | none, _ => true
  | _, none => false
  | _, _ => true

/-- Comparator of `.sort({ [sortBy]: order })`: ascending on the field
for `order = 1`, descending otherwise. -/
def docLe (sortBy : String) (order : Int) (a b : JsValue) : Bool :=
  if order = 1 then fieldLe (jsGetField a sortBy) (jsGetField b sortBy)
  else fieldLe (jsGetField b sortBy) (jsGetField a sortBy)

/-- Insertion step of the sort. -/
def insertLe {α} (le : α → α → Bool) (x : α) : List α → List α
  | [] => [x]
  | y :: ys => if le x y then x :: y :: ys else y :: insertLe le x ys

/-- Modelled from the spec: the store's sorted cursor, as an insertion
sort under the comparator. -/
def sortLe {α} (le : α → α → Bool) : List α → List α
  | [] => []
  | x :: xs => insertLe le x (sortLe le xs)

/-- Modelled from the spec: the cursor pipeline
`find(query).sort(...).skip(skip).limit(limit).toArray()` (§4.4). -/
def findDocs (db : List JsValue) (q : Option String) (sortBy : String)
    (order skip limit : Int) : List JsValue :=
  ((sortLe (docLe sortBy order) (db.filter (matchesQuery q))).drop skip.toNat).take limit.toNat

/-- Model of `countDocuments(query)`. -/
def countDocs (db : List JsValue) (q : Option String) : Nat :=
  (db.filter (matchesQuery q)).length


/-! ## The collection-read handler body (lines 123–196) -/

/-- Model of `Math.ceil(totalUsers / limit)` for a positive integer
`limit`. -/
def jsCeilDiv (totalUsers : Nat) (limit : Int) : Nat :=
  (totalUsers + limit.toNat - 1) / limit.toNat

/-- Everything the miss path of `GET /users` computes before responding. -/
structure ListResult where
  skip : Int
  users : List JsValue
  totalUsers : Nat
  totalPages : Nat
  respData : JsValue

/-- Miss path of the collection read, lines 147–185: skip, filter,
cursor query, count, and the `responseData` object. -/
def buildListResult (db : List JsValue) (page limit : Int) (search sortBy : String)
    (order : Int) : ListResult :=
  let skip := (page - 1) * limit
  let q := mkListQuery search
  let users := findDocs db q sortBy order skip limit
  let totalUsers := countDocs db q
  let totalPages := jsCeilDiv totalUsers limit
  { skip := skip
    users := users
    totalUsers := totalUsers
    totalPages := totalPages
    respData := .objV
      [("page", .numV page), ("limit", .numV limit),
       ("totalUsers", .numV (totalUsers : Int)), ("totalPages", .numV (totalPages : Int)),
       ("users", .arrV users), ("cached", .boolV false)] }

/-! ## Requests, responses, server state, router -/

/-- An inbound request, after transport framing: `method` and raw `url`
as the router sees them; the five recognized `searchParams` lookups of
the url's query string; and the `JSON.parse` outcome of the request body
(`none` models a parse exception). -/
structure Req where
  method : String
  url : String
  pageParam : Option String
  limitParam : Option String
  searchParam : Option String
  sortByParam : Option String
  orderParam : Option String
  parsedBody : Option JsValue

/-- What a handler writes: status, optional `Location` header, optional
JSON body (`GET /load` responds with an empty body). -/
structure Resp where
  status : Nat
  location : Option String
  body : Option JsValue

/-- The mutable state a request can touch: the `users` collection and
the process-wide cache. -/
structure SrvState where
  db : List JsValue
  cache : CacheMap JsValue

/-- JS `x || d` for an optional string (absent and `""` are falsy). -/
def jsOrDefault (o : Option String) (d : String) : String :=
  match o with
  | none => d
  | some s => if s.data.isEmpty then d else s

/-- Guard of the `GET /load` branch (line 32). -/
def isLoadReq (req : Req) : Bool :=
  decide (req.method = "GET") && decide (req.url = "/load")

/-- Guard of the `DELETE /users/:userId` branch (line 64). -/
def isDeleteUserReq (req : Req) : Bool :=
  decide (req.method = "DELETE") && jsStartsWith req.url "/users/"

/-- Guard of the `GET /users/:userId` branch (line 92):
the regex `^\/users\/\d+$`. -/
def isSingleUserReq (req : Req) : Bool :=
  decide (req.method = "GET") && startsWithL "/users/".data req.url.data &&
    !(req.url.data.drop 7).isEmpty && (req.url.data.drop 7).all isDigitB

/-- Guard of the `GET /users` collection branch (line 124). -/
def isListUsersReq (req : Req) : Bool :=
  decide (req.method = "GET") && jsStartsWith req.url "/users"

/-- Guard of the `PUT /users` branch (line 199). -/
def isPutUsersReq (req : Req) : Bool :=
  decide (req.method = "PUT") && decide (req.url = "/users")

/-- Model of `url.split("/")` (JS `String.prototype.split` with a
one-character separator). -/
def splitSlash (l : List Char) : List (List Char) :=
  match l with
  | [] => [[]]
  | c :: rest =>
    let r := splitSlash rest
    if c = '/' then [] :: r
    else
      match r with
      | [] => [[c]]
      | seg :: segs => (c :: seg) :: segs

/-- The `userId` path segment `url.split("/")[2]`
(an out-of-range index reads as `undefined`, which `parseInt` rejects). -/
def userIdSegment (url : String) : List Char :=
  (splitSlash url.data).getD 2 "undefined".data

/-- Cache read followed by the JS truthiness test `if (cachedData)`. -/
def getCachedTruthy (c : CacheMap JsValue) (key : String) (now : Nat) : Option JsValue :=
  match getCache c key now with
  | some d => if jsTruthy d then some d else none
  | none => none

/-- The allow-list of line 138. -/
def validSortFields : List String := ["id", "name", "username", "email"]

/-- Error body of the invalid-`sortBy` response (line 142). -/
def sortByErrBody : JsValue :=
  errBody ("Invalid sortBy field. Must be one of: " ++ String.intercalate ", " validSortFields)

/-- Search normalization of line 128:
`searchParams.get("search")?.toLowerCase() || ""`. -/
def normSearch (o : Option String) : String :=
  match o with
  | none => ""
  | some s => jsToLower s

/-- The collection branch body (lines 124–196), given the normalized
parameters are still to be computed from the request. -/
def handleListUsers (req : Req) (now : Nat) (st : SrvState) : Option Resp × SrvState :=
  let page? := parseIntJS (jsOrDefault req.pageParam "1")
  let limit? := parseIntJS (jsOrDefault req.limitParam "5")
  let search := normSearch req.searchParam
  let sortBy := jsOrDefault req.sortByParam "id"
  let order : Int := if req.orderParam = some "desc" then -1 else 1
  match page?, limit? with
  | some page, some limit =>
    if page < 1 ∨ limit < 1 then
      (some ⟨400, none, some (errBody "Invalid page or limit value")⟩, st)
    else if sortBy ∉ validSortFields then
      (some ⟨400, none, some sortByErrBody⟩, st)
    else
      let cacheKey := collectionKey page limit search sortBy order
      match getCachedTruthy st.cache cacheKey now with
      | some cachedData =>
        (some ⟨200, none, some (jsSetField cachedData "cached" (.boolV true))⟩, st)
      | none =>
        let r := buildListResult st.db page limit search sortBy order
        (some ⟨200, none, some r.respData⟩,
         { st with cache := setCache st.cache cacheKey r.respData now })
  | _, _ =>
    (some ⟨400, none, some (errBody "Invalid page or limit value")⟩, st)

/-- The full router `userRouter(req, res, db)`. `fetched` is the oracle
for the external ingestion of `GET /load`: the fully assembled user
documents the remote API produced (`none` models a fetch failure), since
that network interaction lives outside the process. A request matching
no branch falls off the end of the function: no response is written. -/
def userRouter (req : Req) (fetched : Option (List JsValue)) (now : Nat)
    (st : SrvState) : Option Resp × SrvState :=
  if isLoadReq req then
    match fetched with
    | some users =>
      (some ⟨200, none, none⟩,
       { db := st.db ++ users, cache := invalidateCacheByPrefix st.cache "/users" })
    | none => (some ⟨500, none, some (errBody "Failed to load data")⟩, st)
  else if isDeleteUserReq req then
    match parseIntL (userIdSegment req.url) with
    | none => (some ⟨400, none, some (errBody "Invalid userId")⟩, st)
    | some userId =>
      match deleteOneById st.db userId with
      | none => (some ⟨404, none, some (errBody "User not found")⟩, st)
      | some db' =>
        (some ⟨200, none, some (msgBody "User deleted successfully")⟩,
         { db := db', cache := invalidateCacheByPrefix st.cache "/users" })
  else if isSingleUserReq req then
    let userId := (parseIntL (userIdSegment req.url)).getD 0
    let cacheKey := "/users/" ++ (⟨intReprL userId⟩ : String)
    match getCachedTruthy st.cache cacheKey now with
    | some cachedData =>
      (some ⟨200, none, some (jsSetField cachedData "cached" (.boolV true))⟩, st)
    | none =>
      match findOneById st.db userId with
      | none => (some ⟨404, none, some (errBody "User not found")⟩, st)
      | some user =>
        let responseData := JsValue.objV [("user", user), ("cached", .boolV false)]
        (some ⟨200, none, some responseData⟩,
         { st with cache := setCache st.cache cacheKey responseData now })
  else if isListUsersReq req then
    handleListUsers req now st
  else if isPutUsersReq req then
    match req.parsedBody with
    | none => (some ⟨500, none, some (errBody "Failed to add user")⟩, st)
    | some newUser =>
      if !jsTruthy newUser then
        (some ⟨400, none, some (errBody "Invalid user data")⟩, st)
      else
        match jsNumId newUser with
        | none => (some ⟨400, none, some (errBody "Invalid user data")⟩, st)
        | some newId =>
          match findOneById st.db newId with
          | some _ => (some ⟨400, none, some (errBody "User already exists.")⟩, st)
          | none =>
            (some ⟨201, some ("/users/" ++ (⟨intReprL newId⟩ : String)), some newUser⟩,
             { db := st.db ++ [newUser], cache := invalidateCacheByPrefix st.cache "/users" })
  else (none, st)

/-! ## Claim C2: TTL semantics of the cache -/

/-- C2: after `put(k, v)` at time `t0`, `get(k)` at time `t` returns `v`
exactly when `t - t0 ≤ CACHE_TTL` and is absent otherwise, and the TTL
is the fixed constant 300000 ms; an expired entry is indistinguishable
from an absent one. -/
theorem getCache_setCache_ttl {α} (c : CacheMap α) (k : String) (v : α) (t0 t : Nat) :
    getCache (setCache c k v t0) k t =
      (if t - t0 ≤ CACHE_TTL then some v else none) ∧ CACHE_TTL = 300000 := by
  constructor
  · show getCache (setCache c k v t0) k t = _
    unfold getCache setCache
    rw [if_pos rfl]
    show (if t - t0 > CACHE_TTL then none else some v) = _
    by_cases h : t - t0 > CACHE_TTL
    · rw [if_pos h, if_neg (by omega)]
    · rw [if_neg h, if_pos (by omega)]
  · rfl

/-! ## Claim C3: prefix invalidation scope and frame -/

/-- C3: after `invalidateCacheByPrefix p`, every key starting with `p`
reads as absent; every other key keeps exactly its prior entry; and when
no live key starts with `p` the call leaves the cache unchanged. -/
theorem invalidateCacheByPrefix_scope {α} (c : CacheMap α) (p : String) :
    (∀ k now, jsStartsWith k p = true →
        getCache (invalidateCacheByPrefix c p) k now = none)
    ∧ (∀ k, jsStartsWith k p = false → invalidateCacheByPrefix c p k = c k)
    ∧ ((∀ k, jsStartsWith k p = true → c k = none) → invalidateCacheByPrefix c p = c) := by
  refine ⟨fun k now h => ?_, fun k h => ?_, fun h => ?_⟩
  · unfold getCache invalidateCacheByPrefix
    rw [h]
    simp
  · unfold invalidateCacheByPrefix
    rw [h]
    simp
  · funext k
    unfold invalidateCacheByPrefix
    by_cases hk : jsStartsWith k p = true
    · rw [if_pos hk, (h k hk).symm]
    · rw [if_neg hk]

/-- Witness for C3 at a concrete cache: a `/users/1` entry is purged by
invalidating `/users`, while an unrelated key keeps its entry. -/
theorem invalidateCacheByPrefix_scope_witness :
    getCache (invalidateCacheByPrefix (setCache (emptyCache Nat) "/users/1" 5 0) "/users")
        "/users/1" 3 = none
    ∧ invalidateCacheByPrefix (setCache (emptyCache Nat) "/users/1" 5 0) "/users" "other"
        = setCache (emptyCache Nat) "/users/1" 5 0 "other" := by
  exact ⟨(invalidateCacheByPrefix_scope (setCache (emptyCache Nat) "/users/1" 5 0) "/users").1
      "/users/1" 3 rfl,
    (invalidateCacheByPrefix_scope (setCache (emptyCache Nat) "/users/1" 5 0) "/users").2.1
      "other" rfl⟩

/-! ## Claim C1: the collection cache key does not live under `/users`

The derived key of a collection read is
`JSON.stringify({page, limit, search, sortBy, order})`, which starts
with `\x7b`, not with `/users`, so `invalidateCacheByPrefix("/users")`
after a write leaves every collection entry alive: a collection read
within the TTL then serves the pre-write payload tagged `cached: true`. -/

/-- C1 (refuting run): the derived key of the default collection read is
not under the `/users` namespace, a cached entry under it survives the
write-path invalidation, and a full router run — populate via
`GET /users`, then `DELETE /users/1`, then `GET /users` again within the
TTL — serves the deleted user from the cache. -/
theorem collectionKey_survives_users_invalidation :
    jsStartsWith (collectionKey 1 5 "" "id" 1) "/users" = false
    ∧ getCache (invalidateCacheByPrefix
          (setCache (emptyCache JsValue) (collectionKey 1 5 "" "id" 1) (.boolV true) 0)
          "/users")
        (collectionKey 1 5 "" "id" 1) 1000 = some (.boolV true)
    ∧ (let readReq : Req := ⟨"GET", "/users", none, none, none, none, none, none⟩
       let user1 : JsValue := .objV [("id", .numV 1), ("name", .strV "Alice")]
       let st0 : SrvState := ⟨[user1], emptyCache JsValue⟩
       let st1 := (userRouter readReq none 0 st0).2
       let st2 := (userRouter ⟨"DELETE", "/users/1", none, none, none, none, none, none⟩
           none 1 st1).2
       (userRouter readReq none 2 st2).1 =
         some ⟨200, none, some (.objV
           [("page", .numV 1), ("limit", .numV 5),
            ("totalUsers", .numV 1), ("totalPages", .numV 1),
            ("users", .arrV [user1]), ("cached", .boolV true)])⟩
       ∧ st2.db = []) := by
  exact ⟨rfl, rfl, rfl, rfl⟩

/-! ## Claim C10: unmatched requests get no response -/

/-- C10: a request matching none of the five handled branch guards falls
off the end of `userRouter`: no response is written and neither the
store nor the cache is touched. -/
theorem userRouter_unmatched_no_response (req : Req) (fetched : Option (List JsValue))
    (now : Nat) (st : SrvState)
    (h1 : isLoadReq req = false) (h2 : isDeleteUserReq req = false)
    (h3 : isSingleUserReq req = false) (h4 : isListUsersReq req = false)
    (h5 : isPutUsersReq req = false) :
    userRouter req fetched now st = (none, st) := by
  unfold userRouter
  simp [h1, h2, h3, h4, h5]

/-- Witness for C10: `POST /users` (an unhandled method) receives no
response and leaves the state alone. -/
theorem userRouter_unmatched_no_response_witness :
    userRouter ⟨"POST", "/users", none, none, none, none, none, none⟩ none 0
        ⟨[], emptyCache JsValue⟩ = (none, ⟨[], emptyCache JsValue⟩) :=
  userRouter_unmatched_no_response _ _ _ _ rfl rfl rfl rfl rfl

/-! ## Claim C6: `PUT /users` behavior

The claim says a body that fails to parse as JSON yields
`400 {error:"Invalid user data"}`; the code's `try` block wraps the
`JSON.parse` call, so a parse exception lands in the `catch` and yields
`500 {error:"Failed to add user"}` instead. The remaining clauses hold. -/

/-- C6 (counterexample to the claim as stated): a `PUT /users` whose
body fails to parse is answered `500 {error:"Failed to add user"}`, not
`400 {error:"Invalid user data"}`. -/
theorem putUsers_unparsable_body_gets_500 :
    userRouter ⟨"PUT", "/users", none, none, none, none, none, none⟩ none 0
        ⟨[], emptyCache JsValue⟩
      = (some ⟨500, none, some (errBody "Failed to add user")⟩, ⟨[], emptyCache JsValue⟩) := rfl

/-- C6 (amended): for `PUT /users` — an unparsable body gets
`500 {error:"Failed to add user"}`; a parsed body that is falsy or lacks
a numeric `id` gets `400 {error:"Invalid user data"}` with no insertion;
a body whose `id` already exists gets `400 {error:"User already exists."}`
with no insertion; otherwise the record is appended, the `/users`
namespace is invalidated, and the response is `201` with a
`Location: /users/{id}` header and the created record as body. -/
theorem putUsers_behavior (req : Req) (fetched : Option (List JsValue)) (now : Nat)
    (st : SrvState) (hm : req.method = "PUT") (hu : req.url = "/users") :
    (req.parsedBody = none →
      userRouter req fetched now st
        = (some ⟨500, none, some (errBody "Failed to add user")⟩, st))
    ∧ (∀ v, req.parsedBody = some v → (jsTruthy v = false ∨ jsNumId v = none) →
      userRouter req fetched now st
        = (some ⟨400, none, some (errBody "Invalid user data")⟩, st))
    ∧ (∀ v n d, req.parsedBody = some v → jsTruthy v = true → jsNumId v = some n →
        findOneById st.db n = some d →
      userRouter req fetched now st
        = (some ⟨400, none, some (errBody "User already exists.")⟩, st))
    ∧ (∀ v n, req.parsedBody = some v → jsTruthy v = true → jsNumId v = some n →
        findOneById st.db n = none →
      userRouter req fetched now st
        = (some ⟨201, some ("/users/" ++ (⟨intReprL n⟩ : String)), some v⟩,
           ⟨st.db ++ [v], invalidateCacheByPrefix st.cache "/users"⟩)) := by
  have hput : isPutUsersReq req = true := by
    simp [isPutUsersReq, hm, hu]
  have hload : isLoadReq req = false := by
    simp [isLoadReq, hm]
  have hdel : isDeleteUserReq req = false := by
    simp [isDeleteUserReq, hm]
  have hsingle : isSingleUserReq req = false := by
    simp [isSingleUserReq, hm]
  have hlist : isListUsersReq req = false := by
    simp [isListUsersReq, hm]
  refine ⟨fun hb => ?_, fun v hb hbad => ?_, fun v n d hb ht hn hf => ?_,
    fun v n hb ht hn hf => ?_⟩
  · unfold userRouter
    simp [hload, hdel, hsingle, hlist, hput, hb]
  · unfold userRouter
    rcases hbad with hbad | hbad
    · simp [hload, hdel, hsingle, hlist, hput, hb, hbad]
    · cases htv : jsTruthy v
      · simp [hload, hdel, hsingle, hlist, hput, hb, htv]
      · simp [hload, hdel, hsingle, hlist, hput, hb, htv, hbad]
  · unfold userRouter
    simp [hload, hdel, hsingle, hlist, hput, hb, ht, hn, hf]
  · unfold userRouter
    simp [hload, hdel, hsingle, hlist, hput, hb, ht, hn, hf]

/-- Witness for C6 (amended), exercising the success clause: inserting
`{id: 7}` into an empty store answers `201` with the `Location` header
and invalidates the namespace. -/
theorem putUsers_behavior_witness :
    userRouter ⟨"PUT", "/users", none, none, none, none, none,
        some (.objV [("id", .numV 7)])⟩ none 0 ⟨[], emptyCache JsValue⟩
      = (some ⟨201, some ("/users/" ++ (⟨intReprL 7⟩ : String)),
          some (.objV [("id", .numV 7)])⟩,
         ⟨[.objV [("id", .numV 7)]], invalidateCacheByPrefix (emptyCache JsValue) "/users"⟩) :=
  (putUsers_behavior _ none 0 ⟨[], emptyCache JsValue⟩ rfl rfl).2.2.2
    (.objV [("id", .numV 7)]) 7 rfl rfl rfl rfl

/-! ## Claim C9: `DELETE /users/{id}` behavior -/

/-- C9: for `DELETE` under `/users/` — an id segment that does not parse
as an integer gets `400 {error:"Invalid userId"}` with nothing deleted;
a parsed id matching no record gets `404 {error:"User not found"}` with
store and cache untouched; a successful delete removes the first
matching record, invalidates the `/users` namespace and answers
`200 {message:"User deleted successfully"}`. -/
theorem deleteUser_behavior (req : Req) (fetched : Option (List JsValue)) (now : Nat)
    (st : SrvState) (hm : req.method = "DELETE")
    (hu : jsStartsWith req.url "/users/" = true) :
    (parseIntL (userIdSegment req.url) = none →
      userRouter req fetched now st = (some ⟨400, none, some (errBody "Invalid userId")⟩, st))
    ∧ (∀ n, parseIntL (userIdSegment req.url) = some n → deleteOneById st.db n = none →
      userRouter req fetched now st = (some ⟨404, none, some (errBody "User not found")⟩, st))
    ∧ (∀ n db', parseIntL (userIdSegment req.url) = some n →
        deleteOneById st.db n = some db' →
      userRouter req fetched now st
        = (some ⟨200, none, some (msgBody "User deleted successfully")⟩,
           ⟨db', invalidateCacheByPrefix st.cache "/users"⟩)) := by
  have hload : isLoadReq req = false := by
    simp [isLoadReq, hm]
  have hdel : isDeleteUserReq req = true := by
    simp [isDeleteUserReq, hm, hu]
  refine ⟨fun hp => ?_, fun n hp hd => ?_, fun n db' hp hd => ?_⟩
  · unfold userRouter
    simp [hload, hdel, hp]
  · unfold userRouter
    simp [hload, hdel, hp, hd]
  · unfold userRouter
    simp [hload, hdel, hp, hd]

/-- Witness for C9: a non-numeric id segment is rejected with 400, and
deleting the one stored user succeeds with 200 and an invalidated
namespace. -/
theorem deleteUser_behavior_witness :
    userRouter ⟨"DELETE", "/users/abc", none, none, none, none, none, none⟩ none 0
        ⟨[], emptyCache JsValue⟩
      = (some ⟨400, none, some (errBody "Invalid userId")⟩, ⟨[], emptyCache JsValue⟩)
    ∧ userRouter ⟨"DELETE", "/users/3", none, none, none, none, none, none⟩ none 0
        ⟨[.objV [("id", .numV 3)]], emptyCache JsValue⟩
      = (some ⟨200, none, some (msgBody "User deleted successfully")⟩,
         ⟨[], invalidateCacheByPrefix (emptyCache JsValue) "/users"⟩) :=
  ⟨(deleteUser_behavior ⟨"DELETE", "/users/abc", none, none, none, none, none, none⟩
      none 0 ⟨[], emptyCache JsValue⟩ rfl rfl).1 rfl,
   (deleteUser_behavior ⟨"DELETE", "/users/3", none, none, none, none, none, none⟩
      none 0 ⟨[.objV [("id", .numV 3)]], emptyCache JsValue⟩ rfl rfl).2.2 3 [] rfl rfl⟩

/-! ## Claim C7: `GET /users` validation -/

/-- The failure condition of line 132:
`isNaN(page) || isNaN(limit) || page < 1 || limit < 1`. -/
def badPageLimit (p? l? : Option Int) : Bool :=
  match p?, l? with
  | some p, some l => decide (p < 1) || decide (l < 1)
  | _, _ => true

/-- C7: on the collection branch, a non-numeric or below-1 page/limit is
answered `400 {error:"Invalid page or limit value"}` with the state
untouched (the response does not depend on the store); with page/limit
valid, a `sortBy` outside the allow-list is answered `400` with a
message enumerating exactly `id, name, username, email`, again without
touching the store. -/
theorem listUsers_validation (req : Req) (fetched : Option (List JsValue)) (now : Nat)
    (st : SrvState) (hm : req.method = "GET") (hload : req.url ≠ "/load")
    (hu : jsStartsWith req.url "/users" = true) (hsingle : isSingleUserReq req = false) :
    (badPageLimit (parseIntJS (jsOrDefault req.pageParam "1"))
        (parseIntJS (jsOrDefault req.limitParam "5")) = true →
      userRouter req fetched now st
        = (some ⟨400, none, some (errBody "Invalid page or limit value")⟩, st))
    ∧ (badPageLimit (parseIntJS (jsOrDefault req.pageParam "1"))
        (parseIntJS (jsOrDefault req.limitParam "5")) = false →
       jsOrDefault req.sortByParam "id" ∉ validSortFields →
      userRouter req fetched now st = (some ⟨400, none, some sortByErrBody⟩, st))
    ∧ sortByErrBody = errBody "Invalid sortBy field. Must be one of: id, name, username, email" := by
  have hloadB : isLoadReq req = false := by
    simp [isLoadReq, hload]
  have hdelB : isDeleteUserReq req = false := by
    simp [isDeleteUserReq, hm]
  have hlistB : isListUsersReq req = true := by
    simp [isListUsersReq, hm, hu]
  refine ⟨fun hbad => ?_, fun hgood hsort => ?_, ?_⟩
  · unfold userRouter
    simp only [hloadB, hdelB, hsingle, hlistB, Bool.false_eq_true, if_false, if_true]
    unfold handleListUsers
    cases hp : parseIntJS (jsOrDefault req.pageParam "1") with
    | none => simp [hp]
    | some p =>
      cases hl : parseIntJS (jsOrDefault req.limitParam "5") with
      | none => simp [hp, hl]
      | some l =>
        rw [hp, hl] at hbad
        have : p < 1 ∨ l < 1 := by
          simpa [badPageLimit] using hbad
        simp [hp, hl, this]
  · unfold userRouter
    simp only [hloadB, hdelB, hsingle, hlistB, Bool.false_eq_true, if_false, if_true]
    unfold handleListUsers
    cases hp : parseIntJS (jsOrDefault req.pageParam "1") with
    | none => rw [hp] at hgood; simp [badPageLimit] at hgood
    | some p =>
      cases hl : parseIntJS (jsOrDefault req.limitParam "5") with
      | none => rw [hp, hl] at hgood; simp [badPageLimit] at hgood
      | some l =>
        rw [hp, hl] at hgood
        have hpl : ¬(p < 1 ∨ l < 1) := by
          intro h
          rw [badPageLimit] at hgood
          rcases h with h | h <;> simp [h] at hgood
        simp [hp, hl, hpl, hsort]
  · show errBody _ = _
    exact congrArg errBody (by decide)

/-- Witness for C7: `page=0` is rejected before the store is consulted,
and `sortBy=foo` is rejected with the exact allow-list message. -/
theorem listUsers_validation_witness :
    userRouter ⟨"GET", "/users", some "0", none, none, none, none, none⟩ none 0
        ⟨[], emptyCache JsValue⟩
      = (some ⟨400, none, some (errBody "Invalid page or limit value")⟩,
         ⟨[], emptyCache JsValue⟩)
    ∧ userRouter ⟨"GET", "/users", none, none, none, some "foo", none, none⟩ none 0
        ⟨[], emptyCache JsValue⟩
      = (some ⟨400, none, some sortByErrBody⟩, ⟨[], emptyCache JsValue⟩) :=
  ⟨(listUsers_validation ⟨"GET", "/users", some "0", none, none, none, none, none⟩
      none 0 ⟨[], emptyCache JsValue⟩ rfl (by decide) rfl rfl).1 rfl,
   (listUsers_validation ⟨"GET", "/users", none, none, none, some "foo", none, none⟩
      none 0 ⟨[], emptyCache JsValue⟩ rfl (by decide) rfl rfl).2.1 rfl (by decide)⟩

/-! ## Claim C5: pagination arithmetic -/

/-- The integer ceiling division computed by
`Math.ceil(totalUsers / limit)` agrees with the rational ceiling for any
positive `limit`. -/
theorem jsCeilDiv_eq_ceil (n : Nat) (limit : Int) (hl : 1 ≤ limit) :
    (jsCeilDiv n limit : ℤ) = ⌈(n : ℚ) / (limit : ℚ)⌉ := by
  obtain ⟨L, rfl⟩ : ∃ L : Nat, limit = (L : ℤ) :=
    ⟨limit.toNat, (Int.toNat_of_nonneg (by omega)).symm⟩
  have hL : 1 ≤ L := by exact_mod_cast hl
  have hL0 : (0 : ℚ) < ((L : ℤ) : ℚ) := by
    push_cast
    exact_mod_cast hL
  obtain ⟨T, hTdef⟩ : ∃ T, (n + L - 1) / L = T := ⟨(n + L - 1) / L, rfl⟩
  have hdm := Nat.div_add_mod (n + L - 1) L
  rw [hTdef] at hdm
  have hmod : (n + L - 1) % L < L := Nat.mod_lt _ (by omega)
  have h1 : n ≤ L * T := by omega
  have h2 : L * T < n + L := by omega
  have hjc : jsCeilDiv n (L : ℤ) = T := by
    rw [← hTdef]
    simp [jsCeilDiv]
  rw [hjc]
  symm
  rw [Int.ceil_eq_iff]
  refine ⟨?_, ?_⟩
  · rw [lt_div_iff₀ hL0]
    have h2q : ((L : ℚ)) * ((T : ℕ) : ℚ) < (n : ℚ) + L := by exact_mod_cast h2
    push_cast
    nlinarith
  · rw [div_le_iff₀ hL0]
    have h1q : (n : ℚ) ≤ ((L : ℚ)) * ((T : ℕ) : ℚ) := by exact_mod_cast h1
    push_cast
    nlinarith

/-- C5: for a valid collection read (`page ≥ 1`, `limit ≥ 1`), the
handler queries the store with `skip = (page-1)*limit`, the returned
`totalUsers` is the count of records matching the same filter as the
page query, and `totalPages` is the exact rational ceiling
`⌈totalUsers / limit⌉`. -/
theorem listUsers_pagination (db : List JsValue) (page limit : Int)
    (search sortBy : String) (order : Int) (hp : 1 ≤ page) (hl : 1 ≤ limit) :
    (buildListResult db page limit search sortBy order).skip = (page - 1) * limit
    ∧ (buildListResult db page limit search sortBy order).users
        = findDocs db (mkListQuery search) sortBy order ((page - 1) * limit) limit
    ∧ (buildListResult db page limit search sortBy order).totalUsers
        = countDocs db (mkListQuery search)
    ∧ ((buildListResult db page limit search sortBy order).totalPages : ℤ)
        = ⌈(((buildListResult db page limit search sortBy order).totalUsers : ℚ))
            / (limit : ℚ)⌉ := by
  refine ⟨rfl, rfl, rfl, ?_⟩
  exact jsCeilDiv_eq_ceil (countDocs db (mkListQuery search)) limit hl

/-- Witness for C5: one stored user, `page=2`, `limit=3`: skip is 3,
the count is 1 and `totalPages = ⌈1/3⌉ = 1`. -/
theorem listUsers_pagination_witness :
    (buildListResult [.objV [("id", .numV 1)]] 2 3 "" "id" 1).skip = 3
    ∧ ((buildListResult [.objV [("id", .numV 1)]] 2 3 "" "id" 1).totalPages : ℤ)
        = ⌈(((buildListResult [.objV [("id", .numV 1)]] 2 3 "" "id" 1).totalUsers : ℚ)) / (3 : ℚ)⌉ := by
  have h := listUsers_pagination [.objV [("id", .numV 1)]] 2 3 "" "id" 1
    (by decide) (by decide)
  exact ⟨h.1, h.2.2.2⟩

/-! ## Claim C8: the search filter -/

/-- Valid code points below the surrogate range round-trip through
`Char.ofNat`. -/
theorem toNat_charOfNat {n : Nat} (h : n < 55296) : (Char.ofNat n).toNat = n := by
  have hv : n.isValidChar := Or.inl h
  simp [Char.ofNat, dif_pos hv, Char.ofNatAux, Char.toNat]
  rfl

/-- ASCII lowercasing is idempotent. -/
theorem charToLower_idem (c : Char) : c.toLower.toLower = c.toLower := by
  unfold Char.toLower
  by_cases h : c.toNat ≥ 65 ∧ c.toNat ≤ 90
  · rw [if_pos h]
    have h32 : (Char.ofNat (c.toNat + 32)).toNat = c.toNat + 32 := toNat_charOfNat (by omega)
    rw [if_neg (by omega)]
  · rw [if_neg h, if_neg h]

/-- Lowercasing a list of characters is idempotent. -/
theorem toLowerL_idem (l : List Char) : toLowerL (toLowerL l) = toLowerL l := by
  unfold toLowerL
  rw [List.map_map]
  exact List.map_congr_left (fun c _ => charToLower_idem c)

/-- The executable leading-segment test means exactly "is a prefix". -/
theorem startsWithL_iff (p t : List Char) :
    startsWithL p t = true ↔ ∃ r, t = p ++ r := by
  induction p generalizing t with
  | nil => simp [startsWithL]
  | cons a p ih =>
    cases t with
    | nil => simp [startsWithL]
    | cons b t' =>
      rw [show startsWithL (a :: p) (b :: t') = (a == b && startsWithL p t') from rfl]
      simp only [Bool.and_eq_true, beq_iff_eq, ih]
      constructor
      · rintro ⟨rfl, r, rfl⟩
        exact ⟨r, rfl⟩
      · rintro ⟨r, hr⟩
        rw [List.cons_append] at hr
        injection hr with h1 h2
        exact ⟨h1.symm, r, h2⟩

/-- The executable substring matcher means exactly "occurs as a
contiguous run". -/
theorem occursIn_iff (p t : List Char) :
    occursIn p t = true ↔ ∃ l r, t = l ++ p ++ r := by
  induction t with
  | nil =>
    cases p with
    | nil => simp [occursIn, startsWithL]
    | cons a p =>
      rw [show occursIn (a :: p) [] = (startsWithL (a :: p) [] || false) from rfl]
      simp [startsWithL]
  | cons c t' ih =>
    rw [show occursIn p (c :: t') = (startsWithL p (c :: t') || occursIn p t') from rfl]
    simp only [Bool.or_eq_true, startsWithL_iff, ih]
    constructor
    · rintro (⟨r, hr⟩ | ⟨l, r, hr⟩)
      · exact ⟨[], r, by simpa using hr⟩
      · exact ⟨c :: l, r, by simp [hr]⟩
    · rintro ⟨l, r, hl⟩
      cases l with
      | nil =>
        left
        exact ⟨r, by simpa using hl⟩
      | cons x l' =>
        right
        rw [List.cons_append, List.cons_append] at hl
        injection hl with h1 h2
        exact ⟨l', r, by simpa using h2⟩

/-- One character list occurs case-insensitively in another: with both
sides folded to lower case, the first is a contiguous run of the
second. This is the claim's notion of matching, independent of the
executable matcher. -/
def occursCI (p t : List Char) : Prop :=
  ∃ l r, toLowerL t = l ++ toLowerL p ++ r

/-- The claim's description of the filter: the lower-cased search string
occurs case-insensitively in the name, the username, or the email field;
an empty or absent search matches every record. -/
def specSearchMatches (rawSearch : Option String) (d : JsValue) : Prop :=
  toLowerL (rawSearch.getD "").data = []
  ∨ occursCI (toLowerL (rawSearch.getD "").data) (docStrField d "name").data
  ∨ occursCI (toLowerL (rawSearch.getD "").data) (docStrField d "username").data
  ∨ occursCI (toLowerL (rawSearch.getD "").data) (docStrField d "email").data

/-- C8: the filter the collection handler builds from the raw `search`
parameter selects exactly the records described by the claim: those in
which the lower-cased search occurs case-insensitively as a literal
substring of name, username or email; an empty or absent search selects
every record. -/
theorem searchFilter_matches_spec (rawSearch : Option String) (d : JsValue) :
    matchesQuery (mkListQuery (normSearch rawSearch)) d = true
      ↔ specSearchMatches rawSearch d := by
  have key : ∀ s : String, (toLowerL s.data ≠ []) →
      (matchesQuery (mkListQuery (jsToLower s)) d = true
        ↔ (occursCI (toLowerL s.data) (docStrField d "name").data
           ∨ occursCI (toLowerL s.data) (docStrField d "username").data
           ∨ occursCI (toLowerL s.data) (docStrField d "email").data)) := by
    intro s hs
    have hne : ¬((jsToLower s).data.isEmpty = true) := by
      simp only [jsToLower, List.isEmpty_iff]
      exact hs
    rw [show mkListQuery (jsToLower s) = some (jsToLower s) from by
      unfold mkListQuery
      rw [if_neg hne]]
    have hd : (jsToLower s).data = toLowerL s.data := rfl
    simp only [matchesQuery, regexMatchesCI, hd, Bool.or_eq_true, occursIn_iff,
      toLowerL_idem, occursCI]
    exact or_assoc
  cases rawSearch with
  | none =>
    simp [normSearch, mkListQuery, matchesQuery, specSearchMatches, toLowerL, jsToLower]
  | some s =>
    by_cases hs : toLowerL s.data = []
    · have hmt : (jsToLower s).data.isEmpty = true := by simp [jsToLower, hs]
      simp [normSearch, mkListQuery, matchesQuery, specSearchMatches, hmt, hs]
    · rw [show normSearch (some s) = jsToLower s from rfl]
      rw [key s hs]
      unfold specSearchMatches
      simp [hs]

/-! ## Claim C4: the collection key is injective on normalized tuples

Strategy: an explicit parser recovers the five-tuple from the serialized
key, so the serialization is injective; determinism is function
application. -/

/-- Digit characters carry their value. -/
theorem digitC_toNat {d : Nat} (h : d < 10) : (digitC d).toNat = 48 + d :=
  toNat_charOfNat (by omega)

/-- Digit characters pass the digit test. -/
theorem isDigitB_digitC {d : Nat} (h : d < 10) : isDigitB (digitC d) = true := by
  simp only [isDigitB, digitC_toNat h, Bool.and_eq_true, decide_eq_true_eq]
  omega

/-- Every character of a rendered natural is a decimal digit. -/
theorem natReprFuel_digits {fuel n : Nat} (h : n < fuel) :
    ∀ c ∈ natReprFuel fuel n, isDigitB c = true := by
  induction fuel generalizing n with
  | zero => omega
  | succ f ih =>
    show ∀ c ∈ (if n < 10 then [digitC n] else natReprFuel f (n / 10) ++ [digitC (n % 10)]),
      isDigitB c = true
    by_cases h10 : n < 10
    · rw [if_pos h10]
      intro c hc
      rw [List.mem_singleton.mp hc]
      exact isDigitB_digitC h10
    · rw [if_neg h10]
      intro c hc
      rcases List.mem_append.mp hc with hc | hc
      · exact ih (by omega) c hc
      · rw [List.mem_singleton.mp hc]
        exact isDigitB_digitC (by omega)

/-- A rendered natural is never the empty list. -/
theorem natReprFuel_ne_nil {fuel n : Nat} (h : n < fuel) : natReprFuel fuel n ≠ [] := by
  cases fuel with
  | zero => omega
  | succ f =>
    show (if n < 10 then [digitC n] else natReprFuel f (n / 10) ++ [digitC (n % 10)]) ≠ []
    split <;> simp

/-- Appending one character multiplies the accumulated value by ten. -/
theorem digitsVal_append_one (xs : List Char) (c : Char) :
    digitsVal (xs ++ [c]) = 10 * digitsVal xs + (c.toNat - 48) := by
  unfold digitsVal
  rw [List.foldl_append]
  rfl

/-- Reading back the rendered digits recovers the number. -/
theorem digitsVal_natReprFuel {fuel n : Nat} (h : n < fuel) :
    digitsVal (natReprFuel fuel n) = n := by
  induction fuel generalizing n with
  | zero => omega
  | succ f ih =>
    show digitsVal (if n < 10 then [digitC n] else natReprFuel f (n / 10) ++ [digitC (n % 10)]) = n
    by_cases h10 : n < 10
    · rw [if_pos h10]
      show digitsVal [digitC n] = n
      unfold digitsVal
      simp [digitC_toNat h10]
    · rw [if_neg h10]
      rw [digitsVal_append_one, ih (by omega), digitC_toNat (by omega)]
      omega

/-- `takeWhile`/`dropWhile` split an all-satisfying block at the first
failing element. -/
theorem takeWhile_append_stop {p : Char → Bool} (xs : List Char) (y : Char)
    (ys : List Char) (hx : ∀ c ∈ xs, p c = true) (hy : p y = false) :
    (xs ++ y :: ys).takeWhile p = xs ∧ (xs ++ y :: ys).dropWhile p = y :: ys := by
  induction xs with
  | nil => simp [List.takeWhile, List.dropWhile, hy]
  | cons x xs ih =>
    have hpx : p x = true := hx x (by simp)
    have ih2 := ih (fun c hc => hx c (by simp [hc]))
    simp [List.takeWhile_cons, List.dropWhile_cons, hpx, ih2.1, ih2.2]

/-- `readDigits` consumes exactly a rendered natural when a non-digit
follows. -/
theorem readDigits_repr (n : Nat) (y : Char) (ys : List Char) (hy : isDigitB y = false) :
    readDigits (natReprL n ++ y :: ys) = some (n, y :: ys) := by
  have hdig : ∀ c ∈ natReprL n, isDigitB c = true :=
    natReprFuel_digits (Nat.lt_succ_self n)
  have ht := takeWhile_append_stop (natReprL n) y ys hdig hy
  have hne : ¬((natReprL n ++ y :: ys).takeWhile isDigitB).isEmpty = true := by
    rw [ht.1, List.isEmpty_iff]
    exact natReprFuel_ne_nil (Nat.lt_succ_self n)
  have hval : digitsVal (natReprL n) = n := digitsVal_natReprFuel (Nat.lt_succ_self n)
  unfold readDigits
  rw [if_neg hne, ht.1, ht.2, hval]

/-- Integer reader for the numeric fields of the key (no whitespace or
plus sign can occur there). -/
def readIntKey (l : List Char) : Option (Int × List Char) :=
  if l.headD ' ' = '-' then (readDigits l.tail).map (fun p => (-(p.1 : Int), p.2))
  else (readDigits l).map (fun p => ((p.1 : Int), p.2))

/-- `readIntKey` consumes exactly a rendered integer when a non-digit,
non-minus character follows. -/
theorem readIntKey_repr (z : Int) (y : Char) (ys : List Char) (hy : isDigitB y = false) :
    readIntKey (intReprL z ++ y :: ys) = some (z, y :: ys) := by
  by_cases hz : z < 0
  · rw [show intReprL z = '-' :: natReprL z.natAbs from by unfold intReprL; rw [if_pos hz]]
    rw [List.cons_append]
    show (readDigits (natReprL z.natAbs ++ y :: ys)).map (fun p => (-(p.1 : Int), p.2))
      = some (z, y :: ys)
    rw [readDigits_repr _ _ _ hy]
    show some (-(z.natAbs : Int), y :: ys) = some (z, y :: ys)
    have : (z.natAbs : Int) = -z := by omega
    rw [this, neg_neg]
  · rw [show intReprL z = natReprL z.toNat from by unfold intReprL; rw [if_neg hz]]
    obtain ⟨c, cs, hc⟩ : ∃ c cs, natReprL z.toNat = c :: cs := by
      cases h : natReprL z.toNat with
      | nil => exact absurd h (natReprFuel_ne_nil (Nat.lt_succ_self _))
      | cons c cs => exact ⟨c, cs, rfl⟩
    have hcd : isDigitB c = true := by
      refine natReprFuel_digits (Nat.lt_succ_self z.toNat) c ?_
      show c ∈ natReprL z.toNat
      rw [hc]
      simp
    have hcm : ¬(c = '-') := by
      intro h
      rw [h] at hcd
      exact absurd hcd (by decide)
    unfold readIntKey
    rw [hc, List.cons_append]
    rw [if_neg (by simpa using hcm)]
    rw [← List.cons_append, ← hc]
    rw [readDigits_repr _ _ _ hy]
    show some ((z.toNat : Int), y :: ys) = some (z, y :: ys)
    have : (z.toNat : Int) = z := by omega
    rw [this]

/-- Inverse of the single-character short escapes. -/
def unescapeChar (c : Char) : Option Char :=
  if c = '"' then some '"'
  else if c = '\\' then some '\\'
  else if c = 'b' then some '\x08'
  else if c = 't' then some '\t'
  else if c = 'n' then some '\n'
  else if c = 'f' then some '\x0c'
  else if c = 'r' then some '\r'
  else none

/-- Value of a lowercase hex digit. -/
def hexVal (c : Char) : Nat :=
  if isDigitB c then c.toNat - 48
  else if 97 ≤ c.toNat ∧ c.toNat ≤ 102 then c.toNat - 87
  else 0

/-- Reader of a JSON string body, fuelled so that it is structurally
recursive (one unit of fuel per produced character suffices): consumes
up to and including the closing unescaped quote, undoing the escapes. -/
def readJStrFuel : Nat → List Char → Option (List Char × List Char)
  | 0, _ => none
  | _ + 1, [] => none
  | f + 1, c :: rest =>
    if c = '"' then some ([], rest)
    else if c = '\\' then
      match rest with
      | [] => none
      | e :: rest2 =>
        if e = 'u' then
          match rest2 with
          | h1 :: h2 :: h3 :: h4 :: rest3 =>
            (readJStrFuel f rest3).map (fun p =>
              (Char.ofNat (((hexVal h1 * 16 + hexVal h2) * 16 + hexVal h3) * 16 + hexVal h4)
                :: p.1, p.2))
          | _ => none
        else
          match unescapeChar e with
          | some d => (readJStrFuel f rest2).map (fun p => (d :: p.1, p.2))
          | none => none
    else (readJStrFuel f rest).map (fun p => (c :: p.1, p.2))

/-- Reader of a JSON string body with enough fuel for its input. -/
def readJStr (l : List Char) : Option (List Char × List Char) :=
  readJStrFuel (l.length + 1) l

/-- Hex digits round-trip through their value. -/
theorem hexVal_hexDigitC : ∀ m, m < 16 → hexVal (hexDigitC m) = m := by decide

/-- Escaping never shortens a string. -/
theorem escapeL_length (s : List Char) : s.length ≤ (escapeL s).length := by
  induction s with
  | nil => simp [escapeL]
  | cons c s ih =>
    show (c :: s).length ≤ (jsonEscapeChar c ++ escapeL s).length
    have hne : jsonEscapeChar c ≠ [] := by
      unfold jsonEscapeChar
      repeat' split
      all_goals simp
    have hc : 1 ≤ (jsonEscapeChar c).length := List.length_pos.mpr hne
    simp only [List.length_cons, List.length_append]
    omega

/-- Reading back an escaped string body with enough fuel recovers it
exactly, leaving what follows the closing quote. -/
theorem readJStrFuel_escape (s : List Char) : ∀ (fuel : Nat) (rest : List Char),
    s.length < fuel →
    readJStrFuel fuel (escapeL s ++ '"' :: rest) = some (s, rest) := by
  induction s with
  | nil =>
    intro fuel rest hf
    obtain ⟨f, rfl⟩ : ∃ f, fuel = f + 1 := ⟨fuel - 1, by omega⟩
    rfl
  | cons c s ih =>
    intro fuel rest hf
    obtain ⟨f, rfl⟩ : ∃ f, fuel = f + 1 := ⟨fuel - 1, by omega⟩
    have hs : s.length < f := by
      simp only [List.length_cons] at hf
      omega
    show readJStrFuel (f + 1) ((jsonEscapeChar c ++ escapeL s) ++ '"' :: rest)
      = some (c :: s, rest)
    rw [List.append_assoc]
    unfold jsonEscapeChar
    by_cases h1 : c = '"'
    · subst h1
      rw [if_pos rfl]
      show readJStrFuel (f + 1) ('\\' :: '"' :: (escapeL s ++ '"' :: rest)) = _
      simp [readJStrFuel, unescapeChar, ih f rest hs]
    · rw [if_neg h1]
      by_cases h2 : c = '\\'
      · subst h2
        rw [if_pos rfl]
        show readJStrFuel (f + 1) ('\\' :: '\\' :: (escapeL s ++ '"' :: rest)) = _
        simp [readJStrFuel, unescapeChar, ih f rest hs]
      · rw [if_neg h2]
        by_cases h3 : c = '\x08'
        · subst h3
          rw [if_pos rfl]
          show readJStrFuel (f + 1) ('\\' :: 'b' :: (escapeL s ++ '"' :: rest)) = _
          simp [readJStrFuel, unescapeChar, ih f rest hs]
        · rw [if_neg h3]
          by_cases h4 : c = '\t'
          · subst h4
            rw [if_pos rfl]
            show readJStrFuel (f + 1) ('\\' :: 't' :: (escapeL s ++ '"' :: rest)) = _
            simp [readJStrFuel, unescapeChar, ih f rest hs]
          · rw [if_neg h4]
            by_cases h5 : c = '\n'
            · subst h5
              rw [if_pos rfl]
              show readJStrFuel (f + 1) ('\\' :: 'n' :: (escapeL s ++ '"' :: rest)) = _
              simp [readJStrFuel, unescapeChar, ih f rest hs]
            · rw [if_neg h5]
              by_cases h6 : c = '\x0c'
              · subst h6
                rw [if_pos rfl]
                show readJStrFuel (f + 1) ('\\' :: 'f' :: (escapeL s ++ '"' :: rest)) = _
                simp [readJStrFuel, unescapeChar, ih f rest hs]
              · rw [if_neg h6]
                by_cases h7 : c = '\r'
                · subst h7
                  rw [if_pos rfl]
                  show readJStrFuel (f + 1) ('\\' :: 'r' :: (escapeL s ++ '"' :: rest)) = _
                  simp [readJStrFuel, unescapeChar, ih f rest hs]
                · rw [if_neg h7]
                  by_cases h8 : c.toNat < 32
                  · rw [if_pos h8]
                    show readJStrFuel (f + 1) ('\\' :: 'u' :: '0' :: '0'
                        :: hexDigitC (c.toNat / 16) :: hexDigitC (c.toNat % 16)
                        :: (escapeL s ++ '"' :: rest)) = _
                    rw [show readJStrFuel (f + 1) ('\\' :: 'u' :: '0' :: '0'
                        :: hexDigitC (c.toNat / 16) :: hexDigitC (c.toNat % 16)
                        :: (escapeL s ++ '"' :: rest))
                      = (readJStrFuel f (escapeL s ++ '"' :: rest)).map (fun p =>
                          (Char.ofNat (((hexVal '0' * 16 + hexVal '0') * 16
                              + hexVal (hexDigitC (c.toNat / 16))) * 16
                              + hexVal (hexDigitC (c.toNat % 16))) :: p.1, p.2)) from rfl]
                    rw [ih f rest hs]
                    have hvh : hexVal (hexDigitC (c.toNat / 16)) = c.toNat / 16 :=
                      hexVal_hexDigitC _ (by omega)
                    have hvl : hexVal (hexDigitC (c.toNat % 16)) = c.toNat % 16 :=
                      hexVal_hexDigitC _ (by omega)
                    rw [show hexVal '0' = 0 from rfl, hvh, hvl]
                    have hval : ((0 * 16 + 0) * 16 + c.toNat / 16) * 16 + c.toNat % 16
                        = c.toNat := by omega
                    rw [hval, Char.ofNat_toNat]
                    rfl
                  · rw [if_neg h8]
                    show readJStrFuel (f + 1) (c :: (escapeL s ++ '"' :: rest)) = _
                    rw [show readJStrFuel (f + 1) (c :: (escapeL s ++ '"' :: rest))
                      = (if c = '"' then some ([], escapeL s ++ '"' :: rest)
                         else if c = '\\' then
                           (match escapeL s ++ '"' :: rest with
                            | [] => none
                            | e :: rest2 =>
                              if e = 'u' then
                                match rest2 with
                                | h1 :: h2 :: h3 :: h4 :: rest3 =>
                                  (readJStrFuel f rest3).map (fun p =>
                                    (Char.ofNat (((hexVal h1 * 16 + hexVal h2) * 16
                                        + hexVal h3) * 16 + hexVal h4) :: p.1, p.2))
                                | _ => none
                              else
                                match unescapeChar e with
                                | some d => (readJStrFuel f rest2).map
                                    (fun p => (d :: p.1, p.2))
                                | none => none)
                         else (readJStrFuel f (escapeL s ++ '"' :: rest)).map
                           (fun p => (c :: p.1, p.2))) from rfl]
                    rw [if_neg h1, if_neg h2, ih f rest hs]
                    rfl

/-- Reading back an escaped string body recovers it exactly. -/
theorem readJStr_escape (s rest : List Char) :
    readJStr (escapeL s ++ '"' :: rest) = some (s, rest) := by
  have hlen : s.length < (escapeL s ++ '"' :: rest).length + 1 := by
    have := escapeL_length s
    simp only [List.length_append, List.length_cons]
    omega
  exact readJStrFuel_escape s _ rest hlen

/-- Expect an exact literal at the head of the input and drop it. -/
def dropLit : List Char → List Char → Option (List Char)
  | [], l => some l
  | _ :: _, [] => none
  | a :: lit, b :: l => if b = a then dropLit lit l else none

/-- Dropping a literal off itself succeeds and leaves the remainder. -/
theorem dropLit_append (lit : List Char) : ∀ l : List Char, dropLit lit (lit ++ l) = some l := by
  induction lit with
  | nil => intro l; rfl
  | cons a lit ih =>
    intro l
    show (if a = a then dropLit lit (lit ++ l) else none) = some l
    rw [if_pos rfl, ih l]

/-- Parser recovering the five-tuple from a serialized collection key. -/
def parseListKey (l : List Char) : Option (Int × Int × List Char × List Char × Int) :=
  (dropLit kPage l).bind fun l1 =>
  (readIntKey l1).bind fun p1 =>
  (dropLit kLimit p1.2).bind fun l3 =>
  (readIntKey l3).bind fun p2 =>
  (dropLit (kSearch ++ ['"']) p2.2).bind fun l5 =>
  (readJStr l5).bind fun p3 =>
  (dropLit (kSortBy ++ ['"']) p3.2).bind fun l7 =>
  (readJStr l7).bind fun p4 =>
  (dropLit kOrder p4.2).bind fun l9 =>
  (readIntKey l9).bind fun p5 =>
  if p5.2 = ['\x7d'] then some (p1.1, p2.1, p3.1, p4.1, p5.1) else none

/-- `readIntKey` before the `,"limit":` frame piece. -/
theorem readIntKey_kLimit (z : Int) (rest : List Char) :
    readIntKey (intReprL z ++ (kLimit ++ rest)) = some (z, kLimit ++ rest) :=
  readIntKey_repr z ',' (['"', 'l', 'i', 'm', 'i', 't', '"', ':'] ++ rest) (by decide)

/-- `readIntKey` before the `,"search":"` frame piece. -/
theorem readIntKey_kSearchQ (z : Int) (rest : List Char) :
    readIntKey (intReprL z ++ ((kSearch ++ ['"']) ++ rest))
      = some (z, (kSearch ++ ['"']) ++ rest) :=
  readIntKey_repr z ','
    ((['"', 's', 'e', 'a', 'r', 'c', 'h', '"', ':'] ++ ['"']) ++ rest) (by decide)

/-- `readIntKey` before the closing brace. -/
theorem readIntKey_close (z : Int) :
    readIntKey (intReprL z ++ ['\x7d']) = some (z, ['\x7d']) :=
  readIntKey_repr z '\x7d' [] (by decide)

/-- Parsing a serialized collection key recovers the exact parameter
tuple it was built from. -/
theorem parseListKey_collectionKeyChars (page limit : Int) (search sortBy : String)
    (order : Int) :
    parseListKey (collectionKeyChars page limit search sortBy order)
      = some (page, limit, search.data, sortBy.data, order) := by
  have hshape : collectionKeyChars page limit search sortBy order
      = kPage ++ (intReprL page
        ++ (kLimit ++ (intReprL limit
        ++ ((kSearch ++ ['"']) ++ (escapeL search.data
        ++ ('"' :: ((kSortBy ++ ['"']) ++ (escapeL sortBy.data
        ++ ('"' :: (kOrder ++ (intReprL order
        ++ ['\x7d']))))))))))) := by
    simp [collectionKeyChars, jsonStrL, List.append_assoc]
  rw [hshape]
  unfold parseListKey
  simp only [dropLit_append, Option.some_bind, readIntKey_kLimit, readIntKey_kSearchQ,
    readJStr_escape, readIntKey_close]
  simp

/-- C4: collection cache-key derivation is deterministic and injective
on the normalized parameter tuple — two reads get the same key exactly
when all five normalized parameters agree. -/
theorem collectionKey_deterministic_injective (p1 l1 : Int) (s1 b1 : String) (o1 : Int)
    (p2 l2 : Int) (s2 b2 : String) (o2 : Int) :
    collectionKey p1 l1 s1 b1 o1 = collectionKey p2 l2 s2 b2 o2
      ↔ (p1 = p2 ∧ l1 = l2 ∧ s1 = s2 ∧ b1 = b2 ∧ o1 = o2) := by
  constructor
  · intro h
    have hd : collectionKeyChars p1 l1 s1 b1 o1 = collectionKeyChars p2 l2 s2 b2 o2 :=
      congrArg String.data h
    have hp1 := parseListKey_collectionKeyChars p1 l1 s1 b1 o1
    have hp2 := parseListKey_collectionKeyChars p2 l2 s2 b2 o2
    rw [hd, hp2] at hp1
    simp only [Option.some.injEq, Prod.mk.injEq] at hp1
    obtain ⟨hpp, hll, hss, hbb, hoo⟩ := hp1
    refine ⟨hpp.symm, hll.symm, ?_, ?_, hoo.symm⟩
    · cases s1
      cases s2
      exact congrArg String.mk hss.symm
    · cases b1
      cases b2
      exact congrArg String.mk hbb.symm
  · rintro ⟨rfl, rfl, rfl, rfl, rfl⟩
    rfl
